import Mathlib

/-
Shallow embedding of the rating/score aggregation and leaderboard subsystem
of the teamflask repository, together with proofs checking the
natural-language specification against the code.

Sources embedded:
  - hacks/performances.py : file-backed performance rating store
  - hacks/performance.py  : PerformanceAPI._Submit.post handler
  - api/media_api.py      : MediaScore model, MediaScoreAPI.post,
                            MediaLeaderboardAPI.get
  - model/performance.py  : MultiRating.__init__
  - hacks/prompts.py      : prompt click tracking and trending score
  - hacks/prompt.py       : PromptsAPI._IncrementClick.post handler
-/

namespace TeamFlask

/-! ## Python value model

JSON-decoded request-body values as seen by the Flask handlers.  `pyIntCoerce`
models Python's `int(x)` conversion: `None` raises TypeError, ints are
unchanged, bools map to 0/1, floats truncate toward zero, strings parse as an
optionally signed decimal integer (anything else raises ValueError). -/

inductive PyVal where
  | none : PyVal
  | int (n : ℤ) : PyVal
  | float (q : ℚ) : PyVal
  | str (s : String) : PyVal
  | bool (b : Bool) : PyVal
deriving DecidableEq

/-- Truncation of a rational toward zero, as Python `int(float)` does. -/
def ratTrunc (q : ℚ) : ℤ :=
  if 0 ≤ q then ⌊q⌋ else -⌊-q⌋

/-- Python `int(x)`: `some n` when the conversion succeeds, `Option.none`
when it raises (`TypeError`/`ValueError`). -/
def pyIntCoerce : PyVal → Option ℤ
  | .none => Option.none
  | .int n => some n
  | .float q => some (ratTrunc q)
  | .str s => s.trim.toInt?
  | .bool b => some (if b then 1 else 0)

/-- Python truthiness of a JSON value (`if not x`). -/
def pyTruthy : PyVal → Bool
  | .none => false
  | .int n => n ≠ 0
  | .float q => q ≠ 0
  | .str s => s ≠ ""
  | .bool b => b

/-! ## Performance rating store (hacks/performances.py)

The backing document is a JSON list of records; its in-memory shape is a
`List PerfRec` in insertion order. -/

structure PerfRec where
  id : ℕ
  rating : ℤ
  user_id : Option ℤ
  username : String
deriving DecidableEq

/-- `addPerformance(rating, user_id, username)`: under the exclusive file
lock, read the list, append a record whose id is `len(performances)` and
whose username defaults to "Guest", and write the list back.  Returns the
new record and the new store contents. -/
def addPerformance (rating : ℤ) (user_id : Option ℤ) (username : Option String)
    (store : List PerfRec) : PerfRec × List PerfRec :=
  let uname : String :=
    match username with
    | Option.none => "Guest"
    | some s => if s = "" then "Guest" else s
  let r : PerfRec := ⟨store.length, rating, user_id, uname⟩
  (r, store ++ [r])

/-- Python `round` at integer precision: round half to even. -/
def roundHalfEven (y : ℚ) : ℤ :=
  if y - ⌊y⌋ < 1/2 then ⌊y⌋
  else if 1/2 < y - ⌊y⌋ then ⌊y⌋ + 1
  else if ⌊y⌋ % 2 = 0 then ⌊y⌋ else ⌊y⌋ + 1

/-- Python `round(x, 1)`: round half to even at one decimal place. -/
def pyRound1 (x : ℚ) : ℚ :=
  (roundHalfEven (10 * x) : ℚ) / 10

/-- `getAverageRating()`: 3.0 on an empty store, otherwise
`round(sum / len, 1)`. -/
def getAverageRating (ratings : List ℤ) : ℚ :=
  if ratings = [] then 3
  else pyRound1 ((ratings.sum : ℚ) / (ratings.length : ℚ))

/-- Exact arithmetic mean, for comparison with `getAverageRating`. -/
def meanRating (ratings : List ℤ) : ℚ :=
  (ratings.sum : ℚ) / (ratings.length : ℚ)

/-- `getRatingDistribution()`: the dict `\x7b1: c1, ..., 5: c5\x7d` built by
scanning the store and counting each rating that is one of the keys 1..5,
in key insertion order 1,2,3,4,5. -/
def getRatingDistribution (ratings : List ℤ) : List (ℤ × ℕ) :=
  [(1, ratings.count 1), (2, ratings.count 2), (3, ratings.count 3),
   (4, ratings.count 4), (5, ratings.count 5)]

/-- Python `max(items, key=value)` over a nonempty list: keeps the first
element, replacing it only when a later element's value is strictly
greater. -/
def maxByFirst (x : ℤ × ℕ) : List (ℤ × ℕ) → ℤ × ℕ
  | [] => x
  | y :: ys => maxByFirst (if y.2 > x.2 then y else x) ys

/-- `getMostCommonRating()`: 3 when the distribution is empty or all counts
are zero, otherwise `max(distribution, key=distribution.get)`. -/
def getMostCommonRating (ratings : List ℤ) : ℤ :=
  let dist := getRatingDistribution ratings
  if (dist.map (fun kv => kv.2)).sum = 0 then 3
  else
    match dist with
    | [] => 3
    | x :: xs => (maxByFirst x xs).1

/-! ## Submit handler (hacks/performance.py, PerformanceAPI._Submit.post)

This is the performance blueprint registered in main.py.  The handler
rejects a missing rating, a rating that `int()` cannot convert, and a
converted rating outside `[1, 2, 3, 4, 5]`, each with HTTP 400; otherwise it
persists via `addPerformance(rating, user_id=current_user.id)`. -/

inductive SubmitResult where
  | ok (performance_id : ℕ) (rating : ℤ) : SubmitResult
  | err (status : ℕ) (msg : String) : SubmitResult
deriving DecidableEq

def performanceSubmitPost (v : PyVal) (uid : ℤ) (store : List PerfRec) :
    SubmitResult × List PerfRec :=
  match v with
  | .none => (.err 400 ("Rating field is required"), store)
  | v =>
    match pyIntCoerce v with
    | Option.none => (.err 400 ("Rating must be a number"), store)
    | some n =>
      if n ∈ ([1, 2, 3, 4, 5] : List ℤ) then
        let (p, store') := addPerformance n (some uid) Option.none store
        (.ok p.id n, store')
      else (.err 400 ("Invalid rating. Must be 1-5."), store)

/-- Spec-side characterization: the submitted value parses as an integer in
the closed range [1,5]. -/
def parsesInRange (v : PyVal) : Option ℤ :=
  match pyIntCoerce v with
  | some n => if 1 ≤ n ∧ n ≤ 5 then some n else Option.none
  | Option.none => Option.none

/-! ## File-backed read path (hacks/performances.py)

`_read_performances_file` returns `[]` when the file is missing, and `[]`
when `json.load` fails; otherwise the parsed list. -/

inductive FileState where
  | missing : FileState
  | present (parsed : Option (List PerfRec)) : FileState

def readPerformancesFile : FileState → List PerfRec
  | .missing => []
  | .present Option.none => []
  | .present (some l) => l

def getPerformances (fs : FileState) : List PerfRec :=
  readPerformancesFile fs

def countPerformances (fs : FileState) : ℕ :=
  (readPerformancesFile fs).length

def getAverageRatingFS (fs : FileState) : ℚ :=
  getAverageRating ((readPerformancesFile fs).map (fun p => p.rating))

/-! ## Sequential composition of writes (for the lock discipline)

`addPerformance` holds an exclusive `flock` over the whole document for its
entire read-modify-write cycle, so concurrent submissions are serialized:
any concurrent execution of N valid submits equals some sequential order of
the N calls.  `addMany` folds one such order over the store. -/

def addMany (vs : List ℤ) (uid : Option ℤ) (store : List PerfRec) : List PerfRec :=
  vs.foldl (fun s v => (addPerformance v uid Option.none s).2) store

/-- The records appended by a run of submissions starting at id `i`. -/
def mkNews (uid : Option ℤ) : ℕ → List ℤ → List PerfRec
  | _, [] => []
  | i, v :: vs => ⟨i, v, uid, "Guest"⟩ :: mkNews uid (i + 1) vs

/-! ## Media bias game scores (api/media_api.py)

`MediaScore` rows in insertion (primary-key) order. -/

structure MScore where
  username : String
  time : ℤ
deriving DecidableEq

/-- Best (minimum) time of a player over the stored scores; meaningful only
when the player has at least one score. -/
def bestTime (store : List MScore) (u : String) : ℤ :=
  match (store.filter (fun r => r.username = u)).map (fun r => r.time) with
  | [] => 0
  | t :: ts => ts.foldl min t

/-- Stable insertion of a score into a list sorted ascending by time:
equal times keep their original relative order, as `ORDER BY time ASC`
does over the underlying row order. -/
def insertByTime (x : MScore) : List MScore → List MScore
  | [] => [x]
  | y :: ys => if y.time ≤ x.time then y :: insertByTime x ys else x :: y :: ys

def sortByTime : List MScore → List MScore
  | [] => []
  | x :: xs => insertByTime x (sortByTime xs)

/-- `MediaLeaderboardAPI.get`: the subquery computes each username's minimum
time; the join keeps every stored row whose time equals its username's
minimum; the result is ordered by time ascending, truncated to `limit`,
and numbered with ranks starting at 1. -/
def leaderboard (limit : ℕ) (store : List MScore) : List (ℕ × MScore) :=
  let best := store.filter (fun r => r.time = bestTime store r.username)
  let sorted := (sortByTime best).take limit
  (List.range sorted.length).zipWith (fun i r => (i + 1, r)) sorted

/-- `MediaScoreAPI.post` (JSON-body form): requires a truthy username and a
truthy time, converts the time with `int()` (400 on failure), and stores the
record; there is no positivity or upper-bound check on the converted time.
Returns the HTTP status and the new store contents. -/
def mediaScorePost (username : Option String) (time : PyVal)
    (store : List MScore) : (ℕ × String) × List MScore :=
  match username with
  | Option.none => ((400, "Username is required"), store)
  | some u =>
    if u = "" then ((400, "Username is required"), store)
    else if pyTruthy time = false then ((400, "Time is required"), store)
    else
      match pyIntCoerce time with
      | Option.none => ((400, "Time must be an integer (seconds)"), store)
      | some t => ((201, "created"), store ++ [⟨u, t⟩])

/-! ## MultiRating (model/performance.py)

`MultiRating.__init__` stores `user_id` and `int(q1)..int(q5)`; there is no
range check on any of the five fields, and `create()` persists the record
unconditionally. -/

structure MultiRec where
  user_id : ℤ
  q1 : ℤ
  q2 : ℤ
  q3 : ℤ
  q4 : ℤ
  q5 : ℤ
deriving DecidableEq

/-- `submit_multi` via `MultiRating(user_id, q1..q5)` / `create()`:
`model/performance.py` does not parse — the `class MultiRating` header sits
inside the `except` block with its body at the same indentation, so
importing the module raises `IndentationError` ("expected an indented block
after class definition", line 73).  No `MultiRating` record can ever be
constructed or stored: every call fails with the module's import error
(before any argument is examined, hence the unused binders), never with a
`ValidationError`, and the store is left unchanged.  The class text, were it
loadable, would only coerce each field with `int()` — it contains no range
check either. -/
def submitMulti (_user_id _q1 _q2 _q3 _q4 _q5 : ℤ) (_store : List MultiRec) :
    Except String (MultiRec × List MultiRec) :=
  .error ("IndentationError: expected an indented block after class definition")

/-- Modelled from the spec: the validation §4.1 ascribes to `submit_multi`
("validates each of the five fields independently against the same closed
range; fails with `ValidationError` naming the first offending field").
No such check exists in `MultiRating.__init__` or anywhere else in src; this
definition follows the spec's words for comparison with `submitMulti`. -/
def specSubmitMulti (user_id q1 q2 q3 q4 q5 : ℤ) (store : List MultiRec) :
    Except String (MultiRec × List MultiRec) :=
  if ¬(1 ≤ q1 ∧ q1 ≤ 5) then .error ("q1")
  else if ¬(1 ≤ q2 ∧ q2 ≤ 5) then .error ("q2")
  else if ¬(1 ≤ q3 ∧ q3 ≤ 5) then .error ("q3")
  else if ¬(1 ≤ q4 ∧ q4 ≤ 5) then .error ("q4")
  else if ¬(1 ≤ q5 ∧ q5 ≤ 5) then .error ("q5")
  else
    let r : MultiRec := ⟨user_id, q1, q2, q3, q4, q5⟩
    .ok (r, store ++ [r])

/-! ## Prompt click tracking (hacks/prompts.py, hacks/prompt.py) -/

structure Effect where
  successful_completions : ℕ
  total_uses : ℕ
  success_rate : ℚ
deriving DecidableEq

structure PromptRec where
  id : ℤ
  text : String
  clicks : ℕ
  effectiveness : Effect
  usage_by_section : List (String × ℕ)
  unique_users : List String
  last_clicked : Option String
  trending_score : ℚ
deriving DecidableEq

/-- `getPrompt(id)`: first stored prompt with a matching id. -/
def getPrompt (id : ℤ) (prompts : List PromptRec) : Option PromptRec :=
  prompts.find? (fun pr => pr.id = id)

/-- Increment an association-list counter when the key is present. -/
def bumpKey (k : String) : List (String × ℕ) → List (String × ℕ)
  | [] => []
  | (k', n) :: rest => if k' = k then (k', n + 1) :: rest else (k', n) :: bumpKey k rest

/-- The per-prompt update performed by `increment_prompt_click` on the
matching prompt: bump clicks, record the unique user, bump the section
counter, update effectiveness, stamp `last_clicked` with the click's own
time, and recompute the trending score with zero elapsed hours. -/
def clickUpdate (user_id : Option String) (sect : Option String)
    (led_to_success : Option Bool) (now : String) (pr : PromptRec) : PromptRec :=
  let pr := { pr with clicks := pr.clicks + 1 }
  let pr :=
    match user_id with
    | some u =>
      if u ≠ "" ∧ u ∉ pr.unique_users then
        { pr with unique_users := pr.unique_users ++ [u] }
      else pr
    | Option.none => pr
  let pr :=
    match sect with
    | some s =>
      if s ≠ "" then { pr with usage_by_section := bumpKey s pr.usage_by_section }
      else pr
    | Option.none => pr
  let pr :=
    match led_to_success with
    | some b =>
      let total := pr.effectiveness.total_uses + 1
      let succ := pr.effectiveness.successful_completions + (if b then 1 else 0)
      { pr with effectiveness :=
          ⟨succ, total, if total > 0 then (succ : ℚ) / (total : ℚ) else 0⟩ }
    | Option.none => pr
  let pr := { pr with last_clicked := some now }
  let hours_since_click : ℚ := 0
  let time_decay : ℚ := max 0 (1 - hours_since_click / 24)
  { pr with trending_score := (pr.clicks : ℚ) * time_decay }

/-- Replace the first element satisfying `p` (the loop with `break`). -/
def updateFirst (p : PromptRec → Bool) (f : PromptRec → PromptRec) :
    List PromptRec → List PromptRec
  | [] => []
  | x :: xs => if p x then f x :: xs else x :: updateFirst p f xs

/-- `increment_prompt_click(id, user_id, section, led_to_success)`: under the
exclusive lock, update the first prompt whose id matches (no change when none
does), write the list back, and return `getPrompt(id)` on the new contents. -/
def incrementPromptClick (id : ℤ) (user_id : Option String)
    (sect : Option String) (led_to_success : Option Bool) (now : String)
    (prompts : List PromptRec) : List PromptRec × Option PromptRec :=
  let prompts' :=
    updateFirst (fun pr => pr.id = id)
      (clickUpdate user_id sect led_to_success now) prompts
  (prompts', getPrompt id prompts')

/-- `PromptsAPI._IncrementClick.post(id)`: calls
`increment_prompt_click(id)` and maps a `None` result to a 404
"Prompt not found" response.  Returns (status, message) and the store. -/
def promptClickPost (id : ℤ) (now : String) (prompts : List PromptRec) :
    (ℕ × String) × List PromptRec :=
  let (prompts', res) :=
    incrementPromptClick id Option.none Option.none Option.none now prompts
  match res with
  | some _ => ((200, "ok"), prompts')
  | Option.none => ((404, "Prompt not found"), prompts')

/-- A fresh prompt record as built by `initPrompts`. -/
def initPromptRec (id : ℤ) (text : String) : PromptRec :=
  ⟨id, text, 0, ⟨0, 0, 0⟩,
   [("media_bias", 0), ("thesis_gen", 0), ("citations", 0)],
   [], Option.none, 0⟩

/-- The five static prompts written by `initPrompts` (ids 1..5). -/
def initPromptsData : List PromptRec :=
  [initPromptRec 1 ("What is the political bias of \x7bsource\x7d?"),
   initPromptRec 2 ("Show me recent top stories from \x7bsource\x7d"),
   initPromptRec 3 ("How does \x7bsource\x7d compare to other news outlets?"),
   initPromptRec 4 ("What are the most controversial topics covered by \x7bsource\x7d?"),
   initPromptRec 5 ("Is \x7bsource\x7d a reliable news source?")]

/-! ## Theorems -/

lemma mem_oneToFive_iff (n : ℤ) : n ∈ ([1, 2, 3, 4, 5] : List ℤ) ↔ 1 ≤ n ∧ n ≤ 5 := by
  simp only [List.mem_cons, List.mem_singleton, List.not_mem_nil, or_false]
  omega

lemma performanceSubmitPost_coerce_none (v : PyVal) (uid : ℤ) (store : List PerfRec)
    (h : pyIntCoerce v = Option.none) :
    (performanceSubmitPost v uid store).2 = store ∧
    ∃ msg, (performanceSubmitPost v uid store).1 = .err 400 msg := by
  cases v <;> simp_all [performanceSubmitPost, pyIntCoerce]

lemma performanceSubmitPost_coerce_some (v : PyVal) (uid : ℤ) (store : List PerfRec)
    (n : ℤ) (h : pyIntCoerce v = some n) (hv : v ≠ .none) :
    performanceSubmitPost v uid store =
      if n ∈ ([1, 2, 3, 4, 5] : List ℤ) then
        (.ok store.length n, store ++ [⟨store.length, n, some uid, "Guest"⟩])
      else (.err 400 ("Invalid rating. Must be 1-5."), store) := by
  cases v <;> simp_all [performanceSubmitPost, pyIntCoerce, addPerformance]

/-- C2: the submit handler persists a new rating if and only if the
submitted value converts via `int()` to an integer in the closed range
[1,5]; a value that does not so parse is rejected with a 400 error and the
store is unchanged; a value that does is appended to the store. -/
theorem performance_submit_valid_iff (v : PyVal) (uid : ℤ) (store : List PerfRec) :
    (∀ n, parsesInRange v = some n →
      (performanceSubmitPost v uid store).2 =
        store ++ [⟨store.length, n, some uid, "Guest"⟩] ∧
      (performanceSubmitPost v uid store).1 = .ok store.length n) ∧
    (parsesInRange v = Option.none →
      (performanceSubmitPost v uid store).2 = store ∧
      ∃ msg, (performanceSubmitPost v uid store).1 = .err 400 msg) := by
  constructor
  · intro n hn
    have h5 : pyIntCoerce v = some n ∧ (1 ≤ n ∧ n ≤ 5) := by
      unfold parsesInRange at hn
      rcases h : pyIntCoerce v with _ | m <;> rw [h] at hn
      · cases hn
      · dsimp only at hn
        split_ifs at hn with hr
        injection hn with hmn
        subst hmn
        exact ⟨rfl, hr⟩
    have hv : v ≠ .none := by
      intro e
      subst e
      exact absurd h5.1 (by simp [pyIntCoerce])
    rw [performanceSubmitPost_coerce_some v uid store n h5.1 hv,
      if_pos ((mem_oneToFive_iff n).2 h5.2)]
    exact ⟨rfl, rfl⟩
  · intro hn
    rcases h : pyIntCoerce v with _ | m
    · exact performanceSubmitPost_coerce_none v uid store h
    · have hr : ¬(1 ≤ m ∧ m ≤ 5) := by
        unfold parsesInRange at hn
        rw [h] at hn
        dsimp only at hn
        split_ifs at hn with hr
        exact hr
      have hv : v ≠ .none := by
        intro e
        subst e
        exact absurd h (by simp [pyIntCoerce])
      rw [performanceSubmitPost_coerce_some v uid store m h hv,
        if_neg (fun hmm => hr ((mem_oneToFive_iff m).1 hmm))]
      exact ⟨rfl, ⟨_, rfl⟩⟩

/-- Witness for C2: a submitted 3 is appended; a submitted out-of-range 9
is rejected and the store stays empty. -/
theorem performance_submit_valid_iff_witness :
    (performanceSubmitPost (.int 3) 7 []).2 = [⟨0, 3, some 7, "Guest"⟩] ∧
    (performanceSubmitPost (.int 9) 7 []).2 = [] := by
  have h1 := performance_submit_valid_iff (.int 3) 7 []
  have h2 := performance_submit_valid_iff (.int 9) 7 []
  exact ⟨(h1.1 3 (by decide)).1, (h2.2 (by decide)).1⟩

lemma abs_roundHalfEven_sub (y : ℚ) : |(roundHalfEven y : ℚ) - y| ≤ 1 / 2 := by
  have h1 : (⌊y⌋ : ℚ) ≤ y := Int.floor_le y
  have h2 : y < ⌊y⌋ + 1 := Int.lt_floor_add_one y
  unfold roundHalfEven
  split_ifs <;> (rw [abs_le]; push_cast; constructor <;> linarith)

lemma abs_pyRound1_sub (x : ℚ) : |pyRound1 x - x| ≤ 1 / 20 := by
  have h := abs_roundHalfEven_sub (10 * x)
  have e : pyRound1 x - x = ((roundHalfEven (10 * x) : ℚ) - 10 * x) / 10 := by
    unfold pyRound1
    ring
  rw [e, abs_div]
  rw [show |(10 : ℚ)| = 10 by norm_num]
  linarith

/-- C3: `getAverageRating` returns exactly 3 on an empty store; on a
nonempty store it returns the arithmetic mean rounded to one decimal place
(a multiple of 1/10 within 1/20 of the exact mean); in particular it returns
3 on ratings [1,5] and 4.5 on ratings [4,5].  It is a total function, so it
never raises on an empty store. -/
theorem getAverageRating_spec :
    getAverageRating [] = 3 ∧
    (∀ l : List ℤ, l ≠ [] →
      |getAverageRating l - meanRating l| ≤ 1 / 20 ∧
      ∃ k : ℤ, getAverageRating l = (k : ℚ) / 10) ∧
    getAverageRating [1, 5] = 3 ∧
    getAverageRating [4, 5] = 9 / 2 := by
  refine ⟨rfl, fun l hl => ?_, ?_, ?_⟩
  · rw [getAverageRating, if_neg hl]
    exact ⟨abs_pyRound1_sub (meanRating l), ⟨roundHalfEven (10 * meanRating l), rfl⟩⟩
  · show (if _ then _ else _) = _
    rw [if_neg (by simp)]
    norm_num [pyRound1, roundHalfEven]
  · show (if _ then _ else _) = _
    rw [if_neg (by simp)]
    norm_num [pyRound1, roundHalfEven]

/-- Witness for C3: the rounding bound at the concrete store [1,2]. -/
theorem getAverageRating_spec_witness :
    |getAverageRating [1, 2] - meanRating [1, 2]| ≤ 1 / 20 ∧
    ∃ k : ℤ, getAverageRating [1, 2] = (k : ℚ) / 10 :=
  getAverageRating_spec.2.1 [1, 2] (by simp)

/-- C4 counterexample: a `submit_multi` call with q3 = 6 fails with the
module's `IndentationError` — `model/performance.py` cannot be imported —
not with a `ValidationError` naming q3 as the spec-modelled validator
would; no record is stored, but for the wrong reason and with the wrong
error. -/
theorem submitMulti_q3_counterexample :
    submitMulti 1 5 5 6 5 5 [] =
      .error ("IndentationError: expected an indented block after class definition") ∧
    specSubmitMulti 1 5 5 6 5 5 [] = .error ("q3") ∧
    submitMulti 1 5 5 6 5 5 [] ≠ .error ("q3") := by
  refine ⟨rfl, ?_, by simp [submitMulti]⟩
  norm_num [specSubmitMulti]

/-- C4 amended: every `submit_multi` call — q3 = 6 or fully in range —
fails with the `IndentationError` raised when importing
`model/performance.py`, never with a `ValidationError` naming a field, and
never returns a stored record: no `MultiRating` record is ever persisted,
partial or whole. -/
theorem submitMulti_import_failure (uid q1 q2 q3 q4 q5 : ℤ)
    (store : List MultiRec) :
    submitMulti uid q1 q2 q3 q4 q5 store =
      .error ("IndentationError: expected an indented block after class definition") ∧
    ∀ r : MultiRec, ∀ rest : List MultiRec,
      submitMulti uid q1 q2 q3 q4 q5 store ≠ .ok (r, rest) :=
  ⟨rfl, fun _ _ h => Except.noConfusion h⟩

/-- Witness for C4's amended claim: an entirely in-range submission also
fails with the import error and stores nothing. -/
theorem submitMulti_import_failure_witness :
    submitMulti 2 1 2 3 4 5 [] =
      .error ("IndentationError: expected an indented block after class definition") ∧
    submitMulti 2 1 2 3 4 5 [] ≠ .ok (⟨2, 1, 2, 3, 4, 5⟩, [⟨2, 1, 2, 3, 4, 5⟩]) :=
  ⟨(submitMulti_import_failure 2 1 2 3 4 5 []).1,
   (submitMulti_import_failure 2 1 2 3 4 5 []).2 ⟨2, 1, 2, 3, 4, 5⟩
     [⟨2, 1, 2, 3, 4, 5⟩]⟩

/-- C5 counterexample: a game-score submission with elapsed time -5 — not a
positive integer — is accepted with 201 and the record is stored. -/
theorem mediaScore_negative_counterexample :
    mediaScorePost (some ("eve")) (.int (-5)) [] =
      ((201, "created"), [⟨"eve", -5⟩]) ∧
    ¬(0 < (-5 : ℤ)) := by
  exact ⟨rfl, by decide⟩

/-- C5 amended: the handler stores a score iff the username is truthy, the
time value is truthy, and the time converts via `int()`; the converted
integer is stored as-is with no positivity or upper-bound check (so negative
times are accepted); a falsy or unconvertible time yields a 400 and leaves
the store unchanged. -/
theorem mediaScore_amended (u : String) (t : PyVal) (store : List MScore)
    (hu : u ≠ "") :
    (∀ n, pyTruthy t = true → pyIntCoerce t = some n →
      mediaScorePost (some u) t store = ((201, "created"), store ++ [⟨u, n⟩])) ∧
    (pyTruthy t = false →
      mediaScorePost (some u) t store = ((400, "Time is required"), store)) ∧
    (pyTruthy t = true → pyIntCoerce t = Option.none →
      mediaScorePost (some u) t store =
        ((400, "Time must be an integer (seconds)"), store)) := by
  refine ⟨fun n ht hc => ?_, fun ht => ?_, fun ht hc => ?_⟩
  · simp [mediaScorePost, hu, ht, hc]
  · simp [mediaScorePost, hu, ht]
  · simp [mediaScorePost, hu, ht, hc]

/-- Witness for C5's amended claim: a valid submission is stored. -/
theorem mediaScore_amended_witness :
    mediaScorePost (some ("bob")) (.int 7) [] = ((201, "created"), [⟨"bob", 7⟩]) :=
  (mediaScore_amended ("bob") (.int 7) [] (by decide)).1 7 rfl rfl

/-- C6 counterexample: on an empty store every value 1..5 shares the maximal
count (zero), so the claimed lowest-on-tie arg-max would be 1, yet
`getMostCommonRating` returns 3. -/
theorem mostCommon_zero_counterexample :
    getMostCommonRating [] = 3 ∧
    List.count (1 : ℤ) ([] : List ℤ) = List.count (3 : ℤ) ([] : List ℤ) ∧
    (1 : ℤ) < 3 := by
  exact ⟨rfl, rfl, by decide⟩

/-- C6 amended: whenever the distribution over 1..5 is not all zeros,
`getMostCommonRating` returns a value in 1..5 whose count is maximal, and
every smaller value has strictly smaller count (lowest value wins ties);
when all counts are zero it returns the neutral default 3 instead. -/
lemma maxByFirst_five (a b c d e : ℕ) (r : ℤ × ℕ)
    (hr : r = maxByFirst (1, a) [(2, b), (3, c), (4, d), (5, e)]) :
    (r = (1, a) ∨ r = (2, b) ∨ r = (3, c) ∨ r = (4, d) ∨ r = (5, e)) ∧
    (a ≤ r.2 ∧ b ≤ r.2 ∧ c ≤ r.2 ∧ d ≤ r.2 ∧ e ≤ r.2) ∧
    ((1 < r.1 → a < r.2) ∧ (2 < r.1 → b < r.2) ∧
     (3 < r.1 → c < r.2) ∧ (4 < r.1 → d < r.2)) := by
  subst hr
  simp only [maxByFirst]
  split_ifs <;> simp_all <;> omega

theorem mostCommon_amended (ratings : List ℤ)
    (h : ratings.count 1 + ratings.count 2 + ratings.count 3 +
         ratings.count 4 + ratings.count 5 ≠ 0) :
    getMostCommonRating ratings ∈ ([1, 2, 3, 4, 5] : List ℤ) ∧
    (∀ k ∈ ([1, 2, 3, 4, 5] : List ℤ),
      ratings.count k ≤ ratings.count (getMostCommonRating ratings)) ∧
    (∀ k ∈ ([1, 2, 3, 4, 5] : List ℤ), k < getMostCommonRating ratings →
      ratings.count k < ratings.count (getMostCommonRating ratings)) := by
  have hrew : getMostCommonRating ratings =
      (maxByFirst (1, ratings.count 1)
        [(2, ratings.count 2), (3, ratings.count 3),
         (4, ratings.count 4), (5, ratings.count 5)]).1 := by
    simp only [getMostCommonRating, getRatingDistribution, List.map_cons,
      List.map_nil, List.sum_cons, List.sum_nil]
    rw [if_neg (by omega)]
  have key := maxByFirst_five (ratings.count 1) (ratings.count 2)
    (ratings.count 3) (ratings.count 4) (ratings.count 5) _ rfl
  rw [hrew]
  rcases key with ⟨hcases, hmax, hties⟩
  rcases hcases with h1 | h1 | h1 | h1 | h1 <;> rw [h1] at hmax hties ⊢ <;>
    refine ⟨by simp, fun k hk => ?_, fun k hk hlt => ?_⟩ <;>
      (simp only [List.mem_cons, List.not_mem_nil, or_false] at hk;
       rcases hk with rfl | rfl | rfl | rfl | rfl) <;>
      simp_all

/-- Witness for C6's amended claim at the pinned example: counts
(0,0,1,1,0) give most-common rating 3 (lowest value on the 3-vs-4 tie). -/
theorem mostCommon_amended_witness :
    getMostCommonRating [3, 4] = 3 ∧
    getMostCommonRating [3, 4] ∈ ([1, 2, 3, 4, 5] : List ℤ) ∧
    (∀ k ∈ ([1, 2, 3, 4, 5] : List ℤ),
      List.count k [3, 4] ≤ List.count (getMostCommonRating [3, 4]) [3, 4]) ∧
    (∀ k ∈ ([1, 2, 3, 4, 5] : List ℤ), k < getMostCommonRating [3, 4] →
      List.count k [3, 4] < List.count (getMostCommonRating [3, 4]) [3, 4]) := by
  have h := mostCommon_amended [3, 4] (by decide)
  exact ⟨by decide, h.1, h.2.1, h.2.2⟩

/-- C1: the leaderboard matches the spec's example [(A,50),(A,30),(B,40)],
but on the store [(A,30),(A,30)] — one player with two records sharing the
best time — the join keeps both rows, so A appears at ranks 1 and 2 and the
listed usernames are not duplicate-free, contradicting the one-entry-per-
player contract (and the code's own comment). -/
theorem leaderboard_eval :
    leaderboard 10 [⟨"A", 50⟩, ⟨"A", 30⟩, ⟨"B", 40⟩] =
      [(1, ⟨"A", 30⟩), (2, ⟨"B", 40⟩)] ∧
    leaderboard 10 [⟨"A", 30⟩, ⟨"A", 30⟩] =
      [(1, ⟨"A", 30⟩), (2, ⟨"A", 30⟩)] ∧
    ¬((leaderboard 10 [⟨"A", 30⟩, ⟨"A", 30⟩]).map
        (fun e => e.2.username)).Nodup := by
  refine ⟨by decide, by decide, by decide⟩

lemma clickUpdate_id (u s : Option String) (b : Option Bool) (now : String)
    (pr : PromptRec) : (clickUpdate u s b now pr).id = pr.id := by
  cases u <;> cases s <;> cases b <;> simp [clickUpdate] <;> split_ifs <;> rfl

lemma clickUpdate_clicks (u s : Option String) (b : Option Bool) (now : String)
    (pr : PromptRec) : (clickUpdate u s b now pr).clicks = pr.clicks + 1 := by
  cases u <;> cases s <;> cases b <;> simp [clickUpdate] <;> split_ifs <;> rfl

lemma clickUpdate_trending (u s : Option String) (b : Option Bool) (now : String)
    (pr : PromptRec) :
    (clickUpdate u s b now pr).trending_score =
      ((pr.clicks + 1 : ℕ) : ℚ) * max 0 (1 - 0 / 24) := by
  cases u <;> cases s <;> cases b <;> simp [clickUpdate] <;> split_ifs <;>
    (dsimp only; push_cast; ring)

lemma find?_updateFirst (p : PromptRec → Bool) (f : PromptRec → PromptRec)
    (hp : ∀ a, p a = true → p (f a) = true) (l : List PromptRec) :
    (updateFirst p f l).find? p = (l.find? p).map f := by
  induction l with
  | nil => rfl
  | cons x xs ih =>
    by_cases h : p x = true
    · simp [updateFirst, h, List.find?_cons_of_pos _ h,
        List.find?_cons_of_pos _ (hp x h)]
    · have h' : p x = false := by
        cases hx : p x
        · rfl
        · exact absurd hx h
      simp [updateFirst, h', List.find?_cons_of_neg, ih]

lemma updateFirst_eq_of_find?_none (p : PromptRec → Bool)
    (f : PromptRec → PromptRec) (l : List PromptRec)
    (h : l.find? p = Option.none) : updateFirst p f l = l := by
  induction l with
  | nil => rfl
  | cons x xs ih =>
    rw [List.find?_eq_none] at h
    have hx : p x = false := by
      cases hx : p x
      · rfl
      · exact absurd hx (h x (by simp))
    have hxs : xs.find? p = Option.none := by
      rw [List.find?_eq_none]
      exact fun a ha => h a (List.mem_cons_of_mem x ha)
    simp [updateFirst, hx, ih hxs]

/-- C7: when the clicked prompt is present, the persisted prompt returned by
`increment_prompt_click` (re-read from the written store) has its click
counter incremented, and its stored trending score equals
`clicks * max(0, 1 - hours_since_click/24)` with zero elapsed hours — that
is, exactly the new raw click count at write time. -/
theorem prompt_click_trending (id : ℤ) (u s : Option String) (b : Option Bool)
    (now : String) (store : List PromptRec) (pr : PromptRec)
    (h : getPrompt id store = some pr) :
    ∃ pr', (incrementPromptClick id u s b now store).2 = some pr' ∧
      pr'.clicks = pr.clicks + 1 ∧
      pr'.trending_score = ((pr.clicks + 1 : ℕ) : ℚ) ∧
      pr'.trending_score = (pr'.clicks : ℚ) * max 0 (1 - 0 / 24) := by
  refine ⟨clickUpdate u s b now pr, ?_, clickUpdate_clicks u s b now pr, ?_, ?_⟩
  · show getPrompt id (updateFirst _ _ store) = _
    unfold getPrompt at h ⊢
    rw [find?_updateFirst _ _ (fun a ha => by simpa [clickUpdate_id] using ha)
      store, h]
    rfl
  · rw [clickUpdate_trending]
    norm_num
  · rw [clickUpdate_trending, clickUpdate_clicks]

/-- Witness for C7: clicking prompt 1 of a one-prompt store takes its click
count from 0 to 1 and persists trending score 1. -/
theorem prompt_click_trending_witness :
    ∃ pr', (incrementPromptClick 1 Option.none Option.none Option.none ("t")
        [⟨1, ("p"), 0, ⟨0, 0, 0⟩, [], [], Option.none, 0⟩]).2 = some pr' ∧
      pr'.clicks = 0 + 1 ∧
      pr'.trending_score = ((0 + 1 : ℕ) : ℚ) ∧
      pr'.trending_score = (pr'.clicks : ℚ) * max 0 (1 - 0 / 24) :=
  prompt_click_trending 1 Option.none Option.none Option.none ("t")
    [⟨1, ("p"), 0, ⟨0, 0, 0⟩, [], [], Option.none, 0⟩]
    ⟨1, ("p"), 0, ⟨0, 0, 0⟩, [], [], Option.none, 0⟩ rfl

/-- C9: incrementing a prompt id that is not in the store rewrites the data
unchanged, `increment_prompt_click` evaluates to `None`, and the HTTP layer
answers 404 "Prompt not found" with the store still unchanged. -/
theorem prompt_click_missing (id : ℤ) (now : String) (store : List PromptRec)
    (h : getPrompt id store = Option.none) :
    incrementPromptClick id Option.none Option.none Option.none now store =
      (store, Option.none) ∧
    promptClickPost id now store = ((404, "Prompt not found"), store) := by
  have hst : updateFirst (fun pr => pr.id = id)
      (clickUpdate Option.none Option.none Option.none now) store = store :=
    updateFirst_eq_of_find?_none _ _ store h
  constructor
  · simp only [incrementPromptClick]
    rw [hst, h]
  · simp only [promptClickPost, incrementPromptClick]
    rw [hst, h]

/-- Witness for C9: clicking the absent prompt id 99 on the freshly
initialized five-prompt store 404s and leaves the store unchanged. -/
theorem prompt_click_missing_witness :
    incrementPromptClick 99 Option.none Option.none Option.none ("t")
      initPromptsData = (initPromptsData, Option.none) ∧
    promptClickPost 99 ("t") initPromptsData =
      ((404, "Prompt not found"), initPromptsData) :=
  prompt_click_missing 99 ("t") initPromptsData rfl

/-- C10: a missing backing file and an unparseable backing file are both
read as the empty store, so `getPerformances` returns [],
`countPerformances` returns 0, and `getAverageRating` returns the neutral
default 3.0 — none of them raises. -/
theorem performances_read_defaults (fs : FileState)
    (h : fs = .missing ∨ fs = .present Option.none) :
    getPerformances fs = [] ∧ countPerformances fs = 0 ∧
    getAverageRatingFS fs = 3 := by
  rcases h with rfl | rfl <;>
    exact ⟨rfl, rfl, by simp [getAverageRatingFS, readPerformancesFile,
      getAverageRating]⟩

/-- Witness for C10 at the missing-file state. -/
theorem performances_read_defaults_witness :
    getPerformances .missing = [] ∧ countPerformances .missing = 0 ∧
    getAverageRatingFS .missing = 3 :=
  performances_read_defaults .missing (Or.inl rfl)

lemma addMany_eq (uid : Option ℤ) (vs : List ℤ) :
    ∀ store : List PerfRec,
      addMany vs uid store = store ++ mkNews uid store.length vs := by
  induction vs with
  | nil => intro store; simp [addMany, mkNews]
  | cons v vs ih =>
    intro store
    have h1 : addMany (v :: vs) uid store =
        addMany vs uid (store ++ [⟨store.length, v, uid, "Guest"⟩]) := rfl
    rw [h1, ih]
    simp [mkNews, List.length_append, List.append_assoc]

lemma mkNews_map_rating (uid : Option ℤ) :
    ∀ (i : ℕ) (vs : List ℤ), (mkNews uid i vs).map (fun r => r.rating) = vs := by
  intro i vs
  induction vs generalizing i with
  | nil => rfl
  | cons v vs ih => simp [mkNews, ih]

lemma mkNews_id_ge (uid : Option ℤ) :
    ∀ (vs : List ℤ) (i : ℕ) (r : PerfRec), r ∈ mkNews uid i vs → i ≤ r.id := by
  intro vs
  induction vs with
  | nil => intro i r hr; simp [mkNews] at hr
  | cons v vs ih =>
    intro i r hr
    rcases (List.mem_cons).1 hr with rfl | hr
    · exact le_refl _
    · exact Nat.le_of_succ_le (ih (i + 1) r hr)

lemma mkNews_ids_nodup (uid : Option ℤ) :
    ∀ (vs : List ℤ) (i : ℕ), ((mkNews uid i vs).map (fun r => r.id)).Nodup := by
  intro vs
  induction vs with
  | nil => intro i; simp [mkNews]
  | cons v vs ih =>
    intro i
    rw [mkNews, List.map_cons, List.nodup_cons]
    refine ⟨?_, ih (i + 1)⟩
    intro hmem
    rcases List.mem_map.1 hmem with ⟨r, hr, hid⟩
    have hge := mkNews_id_ge uid vs (i + 1) r hr
    dsimp only at hid
    omega

/-- C8: any serialization of N submit calls (the exclusive lock held for
each whole read-modify-write cycle serializes concurrent writers) appends
exactly N records: the store grows by N, the N new records carry the N
submitted values in order (no lost update), and their ids are pairwise
distinct. -/
theorem addMany_concurrent_submits (vs : List ℤ) (uid : Option ℤ)
    (store : List PerfRec) :
    (addMany vs uid store).length = store.length + vs.length ∧
    ∃ news, addMany vs uid store = store ++ news ∧
      news.map (fun r => r.rating) = vs ∧
      (news.map (fun r => r.id)).Nodup := by
  refine ⟨?_, mkNews uid store.length vs, addMany_eq uid vs store,
    mkNews_map_rating uid store.length vs, mkNews_ids_nodup uid vs store.length⟩
  rw [addMany_eq uid vs store, List.length_append]
  have h := congrArg List.length (mkNews_map_rating uid store.length vs)
  rw [List.length_map] at h
  rw [h]

end TeamFlask
